import Mathlib

/-!
Verification of the plugin loading and lifecycle manager
(`packages/lib/services/plugins/PluginService.ts`).

The embedding translates the pure data manipulation of the service directly;
filesystem and archive effects are represented by explicit environment
parameters and explicit state values, and JavaScript objects keyed by
strings are represented as association lists in insertion order.
-/

/-- JavaScript `String.prototype.trim`: strip whitespace from both ends.
Implemented over the character list so that it evaluates by kernel
reduction. -/
def jsTrim (s : String) : String :=
  String.mk (((s.data.dropWhile Char.isWhitespace).reverse.dropWhile Char.isWhitespace).reverse)

/-- JavaScript `s.indexOf(pre) === 0` (equivalently `s.startsWith(pre)`). -/
def jsStartsWith (s pre : String) : Bool :=
  pre.data.isPrefixOf s.data

/-- Helper for `jsSplitChar`: accumulate the current segment (reversed). -/
def jsSplitCharAux (sep : Char) : List Char → List Char → List String
  | [], acc => [String.mk acc.reverse]
  | c :: rest, acc =>
    if c = sep then String.mk acc.reverse :: jsSplitCharAux sep rest []
    else jsSplitCharAux sep rest (c :: acc)

/-- JavaScript `s.split(sep)` for a one-character separator. -/
def jsSplitChar (sep : Char) (s : String) : List String :=
  jsSplitCharAux sep s.data []

/-- Parse a non-empty all-digit string as a natural number. -/
def jsToNatOpt (s : String) : Option Nat :=
  if s.data ≠ [] ∧ s.data.all Char.isDigit then
    some (s.data.foldl (fun n c => n * 10 + (c.toNat - 48)) 0)
  else none

/-- Normalized plugin metadata produced by `manifestFromObject`.
Modelled from the spec: `manifestFromObject` lives outside `src/`; the spec
states a manifest carries at least `id` and `app_min_version`, other fields
passing through opaquely, so only those two fields are modelled. -/
structure Manifest where
  id : String
  app_min_version : String
deriving DecidableEq, Repr

/-- The raw, decoded manifest object (result of `JSON.parse(manifestText)`),
before defaulting.  A missing or empty-string field is `none` / `some ""`;
JavaScript falsiness of such a field is captured by `falsyStr`. -/
structure ManifestObj where
  id : Option String
  app_min_version : Option String
deriving DecidableEq, Repr

/-- JavaScript falsiness of an optional string field: absent (`undefined`)
and the empty string are falsy. -/
def falsyStr : Option String → Bool
  | none => true
  | some s => s.isEmpty

/-- Modelled from the spec: `manifestFromObject` (outside `src/`) normalizes a
raw object into a `Manifest`; missing fields become empty strings. -/
def manifestFromObject (o : ManifestObj) : Manifest :=
  { id := o.id.getD "", app_min_version := o.app_min_version.getD "" }

/-- Modelled from the spec: the `Plugin` entity (its class file is outside
`src/`).  Attributes per §3 of the spec: `baseDir`, `manifest`, `scriptText`,
`devMode`, and the accumulated deprecation notices. -/
structure Plugin where
  baseDir : String
  manifest : Manifest
  scriptText : String
  deprecationNotices : List String
  devMode : Bool
deriving DecidableEq, Repr

/-- `plugin.id` returns the id of the manifest. -/
def Plugin.id (p : Plugin) : String := p.manifest.id

/-- The `Plugins` registry type: a JavaScript object keyed by plugin id,
modelled as an association list in insertion order. -/
abbrev Plugins := List (String × Plugin)

/-- Property lookup `obj[key]` on a string-keyed JavaScript object. -/
def objLookup (m : List (String × α)) (k : String) : Option α :=
  match m with
  | [] => none
  | kv :: rest => if kv.1 = k then some kv.2 else objLookup rest k

/-- The value of the spread-update `{...m, [k]: v}`: an existing key keeps its
position and gets the new value; a new key is appended. -/
def objSet (m : List (String × α)) (k : String) (v : α) : List (String × α) :=
  if (objLookup m k).isSome then
    m.map (fun kv => if kv.1 = k then (k, v) else kv)
  else
    m ++ [(k, v)]

/-- The value obtained by `delete obj[k]` applied to a copy of `m`. -/
def objDelete (m : List (String × α)) (k : String) : List (String × α) :=
  m.filter (fun kv => kv.1 ≠ k)

/-- `PluginSetting`: the per-plugin dynamic state. -/
structure PluginSetting where
  enabled : Bool
  deleted : Bool
deriving DecidableEq, Repr

/-- `defaultPluginSetting()`. -/
def defaultPluginSetting : PluginSetting :=
  { enabled := true, deleted := false }

/-- `PluginSettings`: mapping from plugin id to `PluginSetting`. -/
abbrev PluginSettings := List (String × PluginSetting)

/-- A stored settings entry as found in persisted data: fields may be absent
(written by an older schema version). -/
structure StoredSetting where
  enabled : Option Bool
  deleted : Option Bool
deriving DecidableEq, Repr

/-- The persisted form of the settings mapping.  `JSON.stringify` followed by
the inverse `JSON.parse` is modelled as the identity injection into the
domain of partial entries, which is where the decoder actually operates. -/
abbrev StoredSettings := List (String × StoredSetting)

/-- `serializePluginSettings`: structural serialization of the mapping; every
field of every entry is written out. -/
def serializePluginSettings (s : PluginSettings) : StoredSettings :=
  s.map (fun kv => (kv.1, { enabled := some kv.2.enabled, deleted := some kv.2.deleted }))

/-- The spread-merge `{...defaultPluginSetting(), ...entry}`: a field present
in the entry wins, an absent field falls back to the default. -/
def mergeOverDefault (e : StoredSetting) : PluginSetting :=
  { enabled := e.enabled.getD defaultPluginSetting.enabled,
    deleted := e.deleted.getD defaultPluginSetting.deleted }

/-- `unserializePluginSettings`: copies the mapping and merges every entry
over the default setting. -/
def unserializePluginSettings (s : StoredSettings) : PluginSettings :=
  s.map (fun kv => (kv.1, mergeOverDefault kv.2))

/-- The scanner state of `parsePluginJsBundle`: `StateStarted = 1`,
`StateInManifest = 2`. -/
inductive ScanState where
  | started
  | inManifest
deriving DecidableEq, Repr

/-- The opening sentinel line of an embedded manifest block. -/
def manifestOpenSentinel : String := "/* joplin-manifest:"

/-- The closing sentinel of an embedded manifest block. -/
def manifestCloseSentinel : String := "*/"

/-- The loop of `parsePluginJsBundle`: each line is trimmed; while in
`started` state, lines are discarded until one equals the opening sentinel;
while in `inManifest` state, lines are accumulated until one starts with the
closing sentinel, which stops the scan. -/
def scanManifestLines : ScanState → List String → List String → List String
  | _, [], acc => acc
  | st, l :: rest, acc =>
    let line := jsTrim l
    match st with
    | .started =>
      if line = manifestOpenSentinel then scanManifestLines .inManifest rest acc
      else scanManifestLines .started rest acc
    | .inManifest =>
      if jsStartsWith line manifestCloseSentinel then acc
      else scanManifestLines .inManifest rest (acc ++ [line])

/-- Errors of the manifest parser. -/
inductive ParseError where
  | manifestNotFound
deriving DecidableEq, Repr

/-- The result record of `parsePluginJsBundle`. -/
structure ParseResult where
  scriptText : String
  manifestText : String
deriving DecidableEq, Repr

/-- `parsePluginJsBundle`: split the script text into lines, run the scanner,
fail when no manifest lines were accumulated, otherwise return the original
script text and the accumulated lines joined with newlines. -/
def parsePluginJsBundle (jsBundleString : String) : Except ParseError ParseResult :=
  let scriptText := jsBundleString
  let manifestText := scanManifestLines .started (jsSplitChar '\n' scriptText) []
  if manifestText.isEmpty then .error .manifestNotFound
  else .ok { scriptText := scriptText, manifestText := String.intercalate "\n" manifestText }

/-- Specification-side description of the accumulated manifest lines: trim all
lines, drop everything up to and including the first line equal to the opening
sentinel, then take lines while they do not start with the closing sentinel. -/
def manifestLinesSpec (s : String) : List String :=
  ((((jsSplitChar '\n' s).map jsTrim).dropWhile
      (fun l => l ≠ manifestOpenSentinel)).drop 1).takeWhile
    (fun l => ¬ jsStartsWith l manifestCloseSentinel)

/-- Modelled from the spec: the slugification performed by the external
`uslug` library — lower-cased, with non-alphanumeric characters stripped. -/
def uslugModel (s : String) : String :=
  String.mk ((s.data.map Char.toLower).filter (fun c => c.isAlphanum))

/-- `makePluginId`: slugify the source name and truncate to 32 characters. -/
def makePluginId (source : String) : String :=
  String.mk ((uslugModel source).data.take 32)

/-- One dot-separated numeric segment list of a version string.  Modelled
from the spec: the external `compare-versions` library compares dotted
version strings numerically, segment by segment. -/
def versionSegments (s : String) : List Nat :=
  (jsSplitChar '.' s).map (fun seg => (jsToNatOpt seg).getD 0)

/-- Lexicographic numeric comparison of version segment lists; missing
trailing segments count as zero. -/
def cmpSegments : List Nat → List Nat → Int
  | [], [] => 0
  | [], b :: bs => if (b :: bs).all (fun x => x = 0) then 0 else -1
  | a :: as, [] => if (a :: as).all (fun x => x = 0) then 0 else 1
  | a :: as, b :: bs =>
    if a < b then -1 else if b < a then 1 else cmpSegments as bs

/-- Modelled from the spec: the external `compareVersions(a, b)` call —
negative when `a` is an older version than `b`. -/
def compareVersions (a b : String) : Int :=
  cmpSegments (versionSegments a) (versionSegments b)

/-- Modelled from the spec: `rtrimSlashes` from `path-utils` (outside
`src/`) removes trailing slashes. -/
def rtrimSlashes (s : String) : String :=
  String.mk ((s.data.reverse.dropWhile (fun c => c = '/')).reverse)

/-- Modelled from the spec: `filename` from `path-utils` (outside `src/`) —
the last path component without its final extension. -/
def filename (path : String) : String :=
  let base := ((jsSplitChar '/' path).getLastD "")
  let parts := jsSplitChar '.' base
  if parts.length ≤ 1 then base
  else String.intercalate "." parts.dropLast

/-- The deprecation notice recorded when `app_min_version` is defaulted. -/
def appMinVersionNotice : String :=
  "The manifest must contain an \"app_min_version\" key, which should be the minimum version of the app you support. It was automatically set to \"1.4\", but please update your manifest.json file."

/-- The fixed prefix of the deprecation notice recorded when `id` is
defaulted. -/
def idNoticePre : String :=
  "The manifest must contain an \"id\" key, which should be a globally unique ID for your plugin, such as \"com.example.MyPlugin\" or a UUID. It was automatically set to \""

/-- The fixed suffix of the deprecation notice recorded when `id` is
defaulted. -/
def idNoticeSuf : String :=
  "\", but please update your manifest.json file."

/-- The deprecation notice recorded when `id` is defaulted to the fallback. -/
def idNotice (fallbackId : String) : String :=
  idNoticePre ++ fallbackId ++ idNoticeSuf

/-- Errors of `loadPlugin`. -/
inductive LoadError where
  | missingPluginId
deriving DecidableEq, Repr

/-- `loadPlugin(baseDir, manifestText, scriptText, pluginIdIfNotSpecified)`,
taken after the external `JSON.parse` of the manifest text: default a falsy
`app_min_version` to `"1.4"` recording a deprecation notice, default a falsy
`id` to the fallback recording a deprecation notice, build the plugin, and
fail when the resulting id is still empty. -/
def loadPlugin (baseDir : String) (manifestObj : ManifestObj) (scriptText : String)
    (pluginIdIfNotSpecified : String) : Except LoadError Plugin :=
  let step1 :=
    if falsyStr manifestObj.app_min_version then
      ({ manifestObj with app_min_version := some "1.4" }, [appMinVersionNotice])
    else (manifestObj, ([] : List String))
  let step2 :=
    if falsyStr step1.1.id then
      ({ step1.1 with id := some pluginIdIfNotSpecified }, step1.2 ++ [idNotice pluginIdIfNotSpecified])
    else step1
  let manifest := manifestFromObject step2.1
  let plugin : Plugin :=
    { baseDir := rtrimSlashes baseDir, manifest := manifest, scriptText := scriptText,
      deprecationNotices := step2.2, devMode := false }
  if plugin.id.isEmpty then .error .missingPluginId
  else .ok plugin

/-- `setPluginAt`: the new mapping value assigned by
`this.plugins_ = {...this.plugins_, [pluginId]: plugin}`. -/
def setPluginAt (m : Plugins) (pluginId : String) (plugin : Plugin) : Plugins :=
  objSet m pluginId plugin

/-- `deletePluginAt`: no change when the id is absent, otherwise the new
mapping value obtained by copying and deleting the key. -/
def deletePluginAt (m : Plugins) (pluginId : String) : Plugins :=
  if (objLookup m pluginId).isSome then objDelete m pluginId else m

/-- An action dispatched to the external store.  `PLUGIN_ADD` carries the
plugin id together with empty `views` and `contentScripts` collections. -/
inductive StoreAction where
  | pluginAdd (pluginId : String)
deriving DecidableEq, Repr

/-- The observable state of the service: the registry, the actions dispatched
to the store, and the plugins handed to the external runner (in order). -/
structure ServiceState where
  plugins_ : Plugins
  dispatched : List StoreAction
  ran : List String
deriving DecidableEq, Repr

/-- The error thrown by `runPlugin` when the host version is too old. -/
inductive RunError where
  | versionTooOld
deriving DecidableEq, Repr

/-- `pluginById`: lookup in the registry, error when absent. -/
def pluginByIdE (st : ServiceState) (id : String) : Except String Plugin :=
  match objLookup st.plugins_ id with
  | none => .error "Plugin not found"
  | some p => .ok p

/-- `pluginEnabled(settings, pluginId)`: `true` when the id has no settings
entry, otherwise the `enabled` flag of the entry. -/
def pluginEnabled (settings : PluginSettings) (pluginId : String) : Bool :=
  match objLookup settings pluginId with
  | none => true
  | some s => s.enabled

/-- `runPlugin`: when the app version is older than the value of
`app_min_version`, throw `VersionTooOld` without touching the state;
otherwise dispatch the `PLUGIN_ADD` action and delegate to the external
runner.  Returns the resulting state together with the thrown error, if
any. -/
def runPluginE (appVersion : String) (st : ServiceState) (plugin : Plugin) :
    ServiceState × Option RunError :=
  if compareVersions appVersion plugin.manifest.app_min_version < 0 then
    (st, some .versionTooOld)
  else
    ({ st with
        dispatched := st.dispatched ++ [StoreAction.pluginAdd plugin.id],
        ran := st.ran ++ [plugin.id] }, none)

/-- The caught try-block of the `loadAndRunPlugins` loop, after a successful
load produced `plugin`.  A candidate whose id is already registered throws
`DuplicateId`, caught by the loop before any registration.  Otherwise the
plugin is registered; when enabled, its `devMode` flag is assigned — the
assignment mutates the very object the registry holds, modelled by the second
`setPluginAt` on the same key — and `runPlugin` is invoked, whose
`VersionTooOld` error is also caught by the loop. -/
def registerAndRunCandidate (appVersion : String) (settings : PluginSettings)
    (devMode : Bool) (st : ServiceState) (plugin : Plugin) : ServiceState :=
  if (objLookup st.plugins_ plugin.id).isSome then st
  else if pluginEnabled settings plugin.id = false then
    { st with plugins_ := setPluginAt st.plugins_ plugin.id plugin }
  else
    (runPluginE appVersion
      { st with plugins_ := (setPluginAt (setPluginAt st.plugins_ plugin.id plugin)
          (Plugin.id { plugin with devMode := devMode }) { plugin with devMode := devMode }) }
      { plugin with devMode := devMode }).1

/-- One candidate of the `loadAndRunPlugins` loop: the underscore check, then
the caught try-block (`registerAndRunCandidate`). -/
def stepCandidate (appVersion : String) (loadFn : String → Option Plugin)
    (settings : PluginSettings) (devMode : Bool)
    (st : ServiceState) (pluginPath : String) : ServiceState :=
  if jsStartsWith (filename pluginPath) "_" then st
  else
    match loadFn pluginPath with
    | none => st
    | some plugin => registerAndRunCandidate appVersion settings devMode st plugin

/-- The batch loop of `loadAndRunPlugins` over an explicit candidate list. -/
def loadAndRunPlugins (appVersion : String) (loadFn : String → Option Plugin)
    (settings : PluginSettings) (devMode : Bool)
    (st : ServiceState) (pluginPaths : List String) : ServiceState :=
  pluginPaths.foldl (stepCandidate appVersion loadFn settings devMode) st

/-- The registry effect of `installPlugin` after the reload from the profile
directory produced `plugin`: register it only when its id is not yet
present. -/
def installPluginStep (st : ServiceState) (plugin : Plugin) : ServiceState :=
  if (objLookup st.plugins_ plugin.id).isSome then st
  else { st with plugins_ := setPluginAt st.plugins_ plugin.id plugin }

/-- The registry effect of `uninstallPlugin(pluginId)`: the on-disk file
removal is external; the registry entry is removed unconditionally. -/
def uninstallPluginM (st : ServiceState) (pluginId : String) : ServiceState :=
  { st with plugins_ := deletePluginAt st.plugins_ pluginId }

/-- `uninstallPlugins(settings)`: iterate over the settings entries; for each
entry flagged deleted, uninstall the plugin and rebuild `newSettings` as a
fresh copy of the original `settings` with that single id deleted (the copy
is taken from `settings`, not from the accumulated `newSettings`, exactly as
in the source).  Returns the final service state and the returned settings
value. -/
def uninstallPlugins (st : ServiceState) (settings : PluginSettings) :
    ServiceState × PluginSettings :=
  settings.foldl
    (fun acc kv =>
      if kv.2.deleted then
        (uninstallPluginM acc.1 kv.1, objDelete settings kv.1)
      else acc)
    (st, settings)

/-- A reference (object identity) in the JavaScript heap. -/
abbrev Ref := Nat

/-- A fragment of the JavaScript heap holding registry mapping objects:
allocated references with their object values, and the next fresh
reference. -/
structure Heap where
  objs : List (Ref × Plugins)
  next : Ref
deriving DecidableEq, Repr

/-- The `plugins_` field of the service as a heap reference: the heap together
with the reference currently stored in the field. -/
structure RegRef where
  heap : Heap
  pluginsRef : Ref
deriving DecidableEq, Repr

/-- Dereference a heap reference. -/
def heapGet (h : Heap) (r : Ref) : Option Plugins :=
  (h.objs.find? (fun kv => kv.1 = r)).map Prod.snd

/-- Heap well-formedness: every allocated reference is below `next`. -/
def heapWF (h : Heap) : Prop :=
  ∀ kv ∈ h.objs, kv.1 < h.next

/-- `setPluginAt` at the reference level:
`this.plugins_ = {...this.plugins_, [pluginId]: plugin}` allocates a fresh
object holding the spread-updated value and repoints the field at it. -/
def setPluginAtHeap (s : RegRef) (pluginId : String) (plugin : Plugin) : RegRef :=
  let cur := (heapGet s.heap s.pluginsRef).getD []
  let fresh := s.heap.next
  { heap := { objs := s.heap.objs ++ [(fresh, setPluginAt cur pluginId plugin)], next := fresh + 1 },
    pluginsRef := fresh }

/-- `deletePluginAt` at the reference level: no effect at all when the id is
absent; otherwise `this.plugins_ = {...this.plugins_}` allocates a fresh copy,
the key is deleted on that fresh object only, and the field is repointed. -/
def deletePluginAtHeap (s : RegRef) (pluginId : String) : RegRef :=
  let cur := (heapGet s.heap s.pluginsRef).getD []
  let fresh := s.heap.next
  if (objLookup cur pluginId).isSome then
    { heap := { objs := s.heap.objs ++ [(fresh, objDelete cur pluginId)], next := fresh + 1 },
      pluginsRef := fresh }
  else s

/-- Errors of `loadPluginFromPackage`. -/
inductive PkgError where
  | extractionFailure
deriving DecidableEq, Repr

/-- A manifest object as stored at the unpack target: the core metadata plus
the `_package_hash` stamp (absent until stamped). -/
structure PkgManifest where
  core : ManifestObj
  packageHash : Option String
deriving DecidableEq, Repr

/-- A package file (`.jpl` archive): its content hash (as computed by the
external `md5File`) and the manifest its archive contains, if any. -/
structure PackageFile where
  hash : String
  archiveManifest : Option PkgManifest
deriving DecidableEq, Repr

/-- The state of the canonical unpack target directory for a package: the
manifest currently readable there (none when missing or unreadable), plus a
count of the extraction calls performed (observational). -/
structure UnpackDirState where
  storedManifest : Option PkgManifest
  extractCount : Nat
deriving DecidableEq, Repr

/-- The cache test of `loadPluginFromPackage`:
`!(!manifest || manifest._package_hash !== hash)` — a previously unpacked
manifest exists and its stored hash equals the fresh hash. -/
def cacheHit (pkg : PackageFile) (st : UnpackDirState) : Bool :=
  match st.storedManifest with
  | none => false
  | some m => m.packageHash == some pkg.hash

/-- The cache-miss path of `loadPluginFromPackage`: wipe the target
(`remove` + `mkdir`), extract the archive, fail when no manifest exists after
extraction, otherwise stamp the manifest with the computed hash and persist
it. -/
def wipeAndExtract (pkg : PackageFile) (st : UnpackDirState) :
    UnpackDirState × Option PkgError :=
  match pkg.archiveManifest with
  | none =>
    ({ storedManifest := none, extractCount := st.extractCount + 1 }, some .extractionFailure)
  | some m =>
    ({ storedManifest := some { m with packageHash := some pkg.hash },
       extractCount := st.extractCount + 1 }, none)

/-- `loadPluginFromPackage` (its unpack phase; the final
`loadPluginFromPath(unpackDir)` call is outside this model): on a cache hit
the target directory is returned untouched, otherwise the archive is wiped
and extracted. -/
def loadPluginFromPackage (pkg : PackageFile) (st : UnpackDirState) :
    UnpackDirState × Option PkgError :=
  if cacheHit pkg st then (st, none) else wipeAndExtract pkg st

/-- The service states reachable through the operations the service performs
on its registry: the initial empty state, batch-discovery steps, the
registration step of `installPlugin`, `uninstallPlugin`, and `runPlugin`. -/
inductive ReachableState : ServiceState → Prop where
  | init : ReachableState { plugins_ := [], dispatched := [], ran := [] }
  | batchStep (appVersion : String) (loadFn : String → Option Plugin)
      (settings : PluginSettings) (devMode : Bool) (st : ServiceState) (p : String) :
      ReachableState st →
      ReachableState (stepCandidate appVersion loadFn settings devMode st p)
  | installStep (st : ServiceState) (plugin : Plugin) :
      ReachableState st → ReachableState (installPluginStep st plugin)
  | uninstallStep (st : ServiceState) (pluginId : String) :
      ReachableState st → ReachableState (uninstallPluginM st pluginId)
  | runStep (appVersion : String) (st : ServiceState) (plugin : Plugin) :
      ReachableState st → ReachableState (runPluginE appVersion st plugin).1

/-- The plugin id effectively in force after the defaulting in `loadPlugin`: the
fallback when the declared id is falsy, otherwise the declared id. -/
def effectiveId (manifestObj : ManifestObj) (fallbackId : String) : String :=
  if falsyStr manifestObj.id then fallbackId else manifestObj.id.getD ""

/-- A loading environment used to exercise the batch loop on concrete inputs:
two candidates whose plugins share the id `"x"`, one with the distinct id
`"y"`. -/
def loadFnW : String → Option Plugin := fun q =>
  if q = "a" then
    some { baseDir := "", manifest := { id := "x", app_min_version := "1.0" },
           scriptText := "s1", deprecationNotices := [], devMode := false }
  else if q = "b" then
    some { baseDir := "", manifest := { id := "x", app_min_version := "1.0" },
           scriptText := "s2", deprecationNotices := [], devMode := false }
  else if q = "c" then
    some { baseDir := "", manifest := { id := "y", app_min_version := "1.0" },
           scriptText := "s3", deprecationNotices := [], devMode := false }
  else none

/-- A loading environment whose two candidates self-declare manifest ids that
differ only in letter case, each produced by `loadPlugin` itself. -/
def loadFnCase : String → Option Plugin := fun q =>
  if q = "p1" then
    (loadPlugin "dir1" { id := some "MyPlugin", app_min_version := some "1.0" } "s1" "").toOption
  else if q = "p2" then
    (loadPlugin "dir2" { id := some "myplugin", app_min_version := some "1.0" } "s2" "").toOption
  else none


/-- A concrete plugin whose manifest requires host version 2.0. -/
def pluginW : Plugin :=
  { baseDir := "", manifest := { id := "a", app_min_version := "2.0" },
    scriptText := "", deprecationNotices := [], devMode := false }

/-- A concrete service state with `pluginW` registered. -/
def stW : ServiceState :=
  { plugins_ := [("a", pluginW)], dispatched := [], ran := [] }

/-- A concrete plugin with id `"b"`. -/
def pluginB : Plugin :=
  { baseDir := "", manifest := { id := "b", app_min_version := "1.0" },
    scriptText := "", deprecationNotices := [], devMode := false }

/-- A concrete service state with plugins `"a"` and `"b"` registered. -/
def stAB : ServiceState :=
  { plugins_ := [("a", pluginW), ("b", pluginB)], dispatched := [], ran := [] }

/-- Settings flagging both `"a"` and `"b"` as deleted. -/
def settingsDelBoth : PluginSettings :=
  [("a", { enabled := true, deleted := true }), ("b", { enabled := true, deleted := true })]

/-- Settings flagging only `"a"` as deleted. -/
def settingsDelOne : PluginSettings :=
  [("a", { enabled := true, deleted := true }), ("b", { enabled := true, deleted := false })]

/-- A concrete well-formed heap state: one allocated registry object. -/
def sC3 : RegRef :=
  { heap := { objs := [(0, [("a", pluginW)])], next := 1 }, pluginsRef := 0 }

/-- A concrete package whose archive carries a manifest without a hash
stamp. -/
def pkgW : PackageFile :=
  { hash := "h1",
    archiveManifest := some { core := { id := some "a", app_min_version := some "1.0" },
                              packageHash := none } }

/-- Heap well-formedness is decidable (a bounded check over the object
list). -/
instance (h : Heap) : Decidable (heapWF h) := by
  rw [heapWF]
  infer_instance

/-- The keys of a JavaScript object are pairwise distinct. -/
def keysNodup (m : List (String × α)) : Prop := (m.map Prod.fst).Nodup

instance (m : List (String × α)) : Decidable (keysNodup m) := by
  rw [keysNodup]
  infer_instance

/-- The number of entries of an object carrying a given key. -/
def keyCount (m : List (String × α)) (k : String) : Nat :=
  (m.filter (fun kv => kv.1 = k)).length

/-- The `app_min_version` value in force after the defaulting in `loadPlugin`. -/
def effectiveAppMinVersion (manifestObj : ManifestObj) : String :=
  if falsyStr manifestObj.app_min_version then "1.4" else manifestObj.app_min_version.getD ""

/-- The deprecation notices accumulated by the defaulting in `loadPlugin`. -/
def defaultingNotices (manifestObj : ManifestObj) (fallbackId : String) : List String :=
  (if falsyStr manifestObj.app_min_version then [appMinVersionNotice] else [])
    ++ (if falsyStr manifestObj.id then [idNotice fallbackId] else [])

theorem scanManifestLines_inManifest (lines : List String) (acc : List String) :
    scanManifestLines .inManifest lines acc =
      acc ++ (lines.map jsTrim).takeWhile
        (fun l => ¬ jsStartsWith l manifestCloseSentinel) := by
  induction lines generalizing acc with
  | nil => simp [scanManifestLines]
  | cons l rest ih =>
    simp only [scanManifestLines, List.map_cons, List.takeWhile]
    by_cases h : jsStartsWith (jsTrim l) manifestCloseSentinel
    · simp [h]
    · simp [h, ih]

theorem scanManifestLines_started (lines : List String) (acc : List String) :
    scanManifestLines .started lines acc =
      acc ++ ((((lines.map jsTrim).dropWhile
          (fun l => l ≠ manifestOpenSentinel)).drop 1).takeWhile
        (fun l => ¬ jsStartsWith l manifestCloseSentinel)) := by
  induction lines generalizing acc with
  | nil => simp [scanManifestLines]
  | cons l rest ih =>
    simp only [scanManifestLines, List.map_cons, List.dropWhile]
    by_cases h : jsTrim l = manifestOpenSentinel
    · simp [h, scanManifestLines_inManifest]
    · simp [h, ih]

/-- Claim C6: for every input script text, `parsePluginJsBundle` returns the
original text unchanged as `scriptText` together with manifest text equal to
the trimmed lines strictly between the first line equal (after trimming) to
the opening sentinel and the first subsequent line starting with the closing
sentinel, joined with newlines; it fails with `ManifestNotFound` exactly when
no such lines are accumulated — in particular whenever no opening sentinel
line occurs. -/
theorem parsePluginJsBundle_spec (s : String) :
    (parsePluginJsBundle s =
      if manifestLinesSpec s = [] then .error .manifestNotFound
      else .ok { scriptText := s, manifestText := String.intercalate "\n" (manifestLinesSpec s) })
    ∧ ((∀ l ∈ (jsSplitChar '\n' s).map jsTrim, l ≠ manifestOpenSentinel) →
        parsePluginJsBundle s = .error .manifestNotFound) := by
  have hscan : scanManifestLines .started (jsSplitChar '\n' s) [] = manifestLinesSpec s := by
    rw [scanManifestLines_started]
    simp [manifestLinesSpec]
  constructor
  · rw [parsePluginJsBundle]
    simp only [hscan]
    by_cases h : manifestLinesSpec s = []
    · simp [h]
    · simp [h, List.isEmpty_iff]
  · intro hall
    rw [parsePluginJsBundle]
    simp only [hscan]
    have hdrop : ((jsSplitChar '\n' s).map jsTrim).dropWhile
        (fun l => l ≠ manifestOpenSentinel) = [] := by
      rw [List.dropWhile_eq_nil_iff]
      intro x hx
      simp [hall x hx]
    have : manifestLinesSpec s = [] := by
      rw [manifestLinesSpec, hdrop]
      simp
    simp [this, List.isEmpty_iff]

/-- Claim C9: decoding the result of encoding a settings mapping yields the
original mapping with each entry merged over the default
`{enabled := true, deleted := false}`; since every typed entry carries both
fields, decode after encode is the identity. -/
theorem unserialize_serialize_id (s : PluginSettings) :
    unserializePluginSettings (serializePluginSettings s) = s := by
  rw [unserializePluginSettings, serializePluginSettings, List.map_map]
  have : ∀ kv : String × PluginSetting,
      (kv.1, mergeOverDefault { enabled := some kv.2.enabled, deleted := some kv.2.deleted }) = kv := by
    intro kv
    rfl
  calc s.map _ = s.map id := List.map_congr_left (fun kv _ => this kv)
    _ = s := List.map_id s

theorem objLookup_isSome_iff (m : List (String × α)) (k : String) :
    (objLookup m k).isSome ↔ k ∈ m.map Prod.fst := by
  induction m with
  | nil => simp [objLookup]
  | cons kv rest ih =>
    simp only [objLookup, List.map_cons, List.mem_cons]
    by_cases h : kv.1 = k
    · simp [h]
    · rw [if_neg h, ih]
      constructor
      · intro hk
        exact Or.inr hk
      · intro hk
        cases hk with
        | inl he => exact absurd he.symm h
        | inr hr => exact hr

theorem objLookup_append (m₁ m₂ : List (String × α)) (k : String) :
    objLookup (m₁ ++ m₂) k =
      match objLookup m₁ k with
      | some v => some v
      | none => objLookup m₂ k := by
  induction m₁ with
  | nil => simp [objLookup]
  | cons kv rest ih =>
    simp only [List.cons_append, objLookup]
    by_cases h : kv.1 = k
    · simp [h]
    · simp [h, ih]

theorem objLookup_map_replace (m : List (String × α)) (k k' : String) (v : α)
    (h : k ≠ k') :
    objLookup (m.map (fun kv => if kv.1 = k then (k, v) else kv)) k' = objLookup m k' := by
  induction m with
  | nil => simp [objLookup]
  | cons kv rest ih =>
    simp only [List.map_cons, objLookup]
    by_cases h1 : kv.1 = k
    · simp [h1, h, ih]
    · simp [h1, ih]

theorem objLookup_objSet_ne (m : List (String × α)) (k k' : String) (v : α)
    (h : k ≠ k') :
    objLookup (objSet m k v) k' = objLookup m k' := by
  rw [objSet]
  by_cases hp : (objLookup m k).isSome
  · rw [if_pos hp, objLookup_map_replace m k k' v h]
  · rw [if_neg hp, objLookup_append]
    cases h2 : objLookup m k' with
    | some w => simp
    | none => simp [objLookup, h]

theorem objSet_keys_of_isSome (m : List (String × α)) (k : String) (v : α)
    (hp : (objLookup m k).isSome) :
    (objSet m k v).map Prod.fst = m.map Prod.fst := by
  rw [objSet, if_pos hp, List.map_map]
  apply List.map_congr_left
  intro kv _
  by_cases h1 : kv.1 = k
  · simp [h1]
  · simp [h1]

theorem keysNodup_objSet (m : List (String × α)) (k : String) (v : α)
    (h : keysNodup m) : keysNodup (objSet m k v) := by
  by_cases hp : (objLookup m k).isSome
  · rw [keysNodup, objSet_keys_of_isSome m k v hp]
    exact h
  · rw [keysNodup, objSet, if_neg hp, List.map_append]
    rw [List.nodup_append]
    refine ⟨h, List.nodup_singleton k, ?_⟩
    intro a ha hb
    simp only [List.map_cons, List.map_nil, List.mem_singleton] at hb
    rw [objLookup_isSome_iff] at hp
    subst hb
    exact hp ha

theorem keyCount_eq_one (m : List (String × α)) (k : String) (v : α)
    (hnd : keysNodup m) (h : objLookup m k = some v) : keyCount m k = 1 := by
  induction m with
  | nil => simp [objLookup] at h
  | cons kv rest ih =>
    rw [keysNodup, List.map_cons, List.nodup_cons] at hnd
    rw [objLookup] at h
    by_cases h1 : kv.1 = k
    · have hrest : rest.filter (fun kv2 => kv2.1 = k) = [] := by
        rw [List.filter_eq_nil_iff]
        intro x hx
        simp only [decide_eq_true_eq]
        intro hxk
        exact hnd.1 (by rw [h1, ← hxk]; exact List.mem_map_of_mem Prod.fst hx)
      rw [keyCount, List.filter_cons]
      simp [h1, hrest]
    · rw [if_neg h1] at h
      rw [keyCount, List.filter_cons]
      simp only [h1, decide_False, if_false]
      exact ih hnd.2 h

theorem runPluginE_plugins (appVersion : String) (st : ServiceState) (plugin : Plugin) :
    ((runPluginE appVersion st plugin).1).plugins_ = st.plugins_ := by
  rw [runPluginE]
  split
  · rfl
  · rfl

theorem registerAndRunCandidate_preserves_entry (appVersion : String)
    (settings : PluginSettings) (devMode : Bool) (st : ServiceState) (plugin : Plugin)
    (pid : String) (pl : Plugin)
    (h : objLookup st.plugins_ pid = some pl) :
    objLookup (registerAndRunCandidate appVersion settings devMode st plugin).plugins_ pid = some pl := by
  rw [registerAndRunCandidate]
  by_cases h2 : (objLookup st.plugins_ plugin.id).isSome = true
  · rw [if_pos h2]
    exact h
  · rw [if_neg h2]
    have hne : Plugin.id plugin ≠ pid := by
      intro he
      exact h2 (by rw [he, h]; rfl)
    by_cases h3 : pluginEnabled settings plugin.id = false
    · rw [if_pos h3]
      show objLookup (setPluginAt st.plugins_ plugin.id plugin) pid = some pl
      rw [setPluginAt, objLookup_objSet_ne _ _ _ _ hne]
      exact h
    · rw [if_neg h3, runPluginE_plugins]
      show objLookup
        (setPluginAt (setPluginAt st.plugins_ plugin.id plugin)
          (Plugin.id { plugin with devMode := devMode })
          { plugin with devMode := devMode }) pid = some pl
      have hne2 : Plugin.id { plugin with devMode := devMode } ≠ pid := hne
      rw [setPluginAt, setPluginAt, objLookup_objSet_ne _ _ _ _ hne2,
        objLookup_objSet_ne _ _ _ _ hne]
      exact h

theorem stepCandidate_preserves_entry (appVersion : String) (loadFn : String → Option Plugin)
    (settings : PluginSettings) (devMode : Bool) (st : ServiceState) (p : String)
    (pid : String) (pl : Plugin)
    (h : objLookup st.plugins_ pid = some pl) :
    objLookup (stepCandidate appVersion loadFn settings devMode st p).plugins_ pid = some pl := by
  rw [stepCandidate]
  by_cases h1 : jsStartsWith (filename p) "_" = true
  · rw [if_pos h1]
    exact h
  · rw [if_neg h1]
    cases hload : loadFn p with
    | none => exact h
    | some plugin =>
      show objLookup (registerAndRunCandidate appVersion settings devMode st plugin).plugins_ pid = some pl
      exact registerAndRunCandidate_preserves_entry appVersion settings devMode st plugin pid pl h

theorem loadAndRunPlugins_preserves_entry (appVersion : String)
    (loadFn : String → Option Plugin) (settings : PluginSettings) (devMode : Bool)
    (paths : List String) (st : ServiceState) (pid : String) (pl : Plugin)
    (h : objLookup st.plugins_ pid = some pl) :
    objLookup (loadAndRunPlugins appVersion loadFn settings devMode st paths).plugins_ pid = some pl := by
  induction paths generalizing st with
  | nil => exact h
  | cons p rest ih =>
    show objLookup (loadAndRunPlugins appVersion loadFn settings devMode
      (stepCandidate appVersion loadFn settings devMode st p) rest).plugins_ pid = some pl
    exact ih _ (stepCandidate_preserves_entry appVersion loadFn settings devMode st p pid pl h)

theorem registerAndRunCandidate_keysNodup (appVersion : String)
    (settings : PluginSettings) (devMode : Bool) (st : ServiceState) (plugin : Plugin)
    (h : keysNodup st.plugins_) :
    keysNodup (registerAndRunCandidate appVersion settings devMode st plugin).plugins_ := by
  rw [registerAndRunCandidate]
  by_cases h2 : (objLookup st.plugins_ plugin.id).isSome = true
  · rw [if_pos h2]
    exact h
  · rw [if_neg h2]
    by_cases h3 : pluginEnabled settings plugin.id = false
    · rw [if_pos h3]
      exact keysNodup_objSet _ _ _ h
    · rw [if_neg h3, runPluginE_plugins]
      exact keysNodup_objSet _ _ _ (keysNodup_objSet _ _ _ h)

theorem stepCandidate_keysNodup (appVersion : String) (loadFn : String → Option Plugin)
    (settings : PluginSettings) (devMode : Bool) (st : ServiceState) (p : String)
    (h : keysNodup st.plugins_) :
    keysNodup (stepCandidate appVersion loadFn settings devMode st p).plugins_ := by
  rw [stepCandidate]
  by_cases h1 : jsStartsWith (filename p) "_" = true
  · rw [if_pos h1]
    exact h
  · rw [if_neg h1]
    cases hload : loadFn p with
    | none => exact h
    | some plugin =>
      show keysNodup (registerAndRunCandidate appVersion settings devMode st plugin).plugins_
      exact registerAndRunCandidate_keysNodup appVersion settings devMode st plugin h

theorem loadAndRunPlugins_keysNodup (appVersion : String)
    (loadFn : String → Option Plugin) (settings : PluginSettings) (devMode : Bool)
    (paths : List String) (st : ServiceState)
    (h : keysNodup st.plugins_) :
    keysNodup (loadAndRunPlugins appVersion loadFn settings devMode st paths).plugins_ := by
  induction paths generalizing st with
  | nil => exact h
  | cons p rest ih =>
    show keysNodup (loadAndRunPlugins appVersion loadFn settings devMode
      (stepCandidate appVersion loadFn settings devMode st p) rest).plugins_
    exact ih _ (stepCandidate_keysNodup appVersion loadFn settings devMode st p h)

theorem stepCandidate_noop (appVersion : String) (loadFn : String → Option Plugin)
    (settings : PluginSettings) (devMode : Bool) (st : ServiceState) (p : String)
    (hfail : loadFn p = none ∨
      ∃ pl, loadFn p = some pl ∧ (objLookup st.plugins_ pl.id).isSome) :
    stepCandidate appVersion loadFn settings devMode st p = st := by
  rw [stepCandidate]
  by_cases h1 : jsStartsWith (filename p) "_" = true
  · rw [if_pos h1]
  · rw [if_neg h1]
    cases hfail with
    | inl hn => rw [hn]
    | inr hex =>
      obtain ⟨pl, hl, hs⟩ := hex
      rw [hl]
      show registerAndRunCandidate appVersion settings devMode st pl = st
      rw [registerAndRunCandidate, if_pos hs]

/-- Claim C8: for every registered plugin whose manifest `app_min_version`
exceeds the host version, `runPlugin` fails with `VersionTooOld`, dispatches
no registration event, does not invoke the external runner, and the plugin
remains in the registry and retrievable by id; when the host version is
greater than or equal, `runPlugin` dispatches the `PLUGIN_ADD` event and
delegates to the runner. -/
theorem runPlugin_version_gate (appVersion : String) (st : ServiceState) (plugin : Plugin)
    (hreg : objLookup st.plugins_ plugin.id = some plugin) :
    (compareVersions appVersion plugin.manifest.app_min_version < 0 →
      runPluginE appVersion st plugin = (st, some .versionTooOld)
      ∧ pluginByIdE (runPluginE appVersion st plugin).1 plugin.id = .ok plugin)
    ∧ (¬ compareVersions appVersion plugin.manifest.app_min_version < 0 →
      runPluginE appVersion st plugin =
        ({ st with dispatched := st.dispatched ++ [StoreAction.pluginAdd plugin.id],
                   ran := st.ran ++ [plugin.id] }, none)) := by
  constructor
  · intro hlt
    have he : runPluginE appVersion st plugin = (st, some .versionTooOld) := by
      rw [runPluginE, if_pos hlt]
    refine ⟨he, ?_⟩
    rw [he]
    simp [pluginByIdE, hreg]
  · intro hge
    rw [runPluginE, if_neg hge]

theorem runPlugin_version_gate_witness :
    runPluginE "1.0" stW pluginW = (stW, some .versionTooOld)
    ∧ pluginByIdE stW (Plugin.id pluginW) = .ok pluginW := by
  have h := (runPlugin_version_gate "1.0" stW pluginW (by decide)).1 (by decide)
  exact ⟨h.1, h.2⟩

/-- Claim C10: the underscore exclusion marker applies to every candidate of
`loadAndRunPlugins`, including entries of an explicitly supplied path list:
for every path whose filename starts with `"_"`, the step of that candidate is a
no-op for every loading environment (so it is neither loaded, registered nor
run), and the batch over a list containing it equals the batch with it
removed. -/
theorem underscore_exclusion (appVersion : String) (settings : PluginSettings)
    (devMode : Bool) (st : ServiceState) (pre post : List String) (p : String)
    (h : jsStartsWith (filename p) "_" = true) :
    (∀ loadFn : String → Option Plugin,
      stepCandidate appVersion loadFn settings devMode st p = st)
    ∧ (∀ loadFn : String → Option Plugin,
      loadAndRunPlugins appVersion loadFn settings devMode st (pre ++ p :: post)
        = loadAndRunPlugins appVersion loadFn settings devMode st (pre ++ post)) := by
  have hstep : ∀ (loadFn : String → Option Plugin) (st1 : ServiceState),
      stepCandidate appVersion loadFn settings devMode st1 p = st1 := by
    intro loadFn st1
    rw [stepCandidate, if_pos h]
  refine ⟨fun loadFn => hstep loadFn st, fun loadFn => ?_⟩
  rw [loadAndRunPlugins, loadAndRunPlugins, List.foldl_append, List.foldl_append,
    List.foldl_cons, hstep loadFn _]

theorem underscore_exclusion_witness :
    stepCandidate "1.0" loadFnW [] false
      { plugins_ := [], dispatched := [], ran := [] } "/plugins/_disabled.js"
      = { plugins_ := [], dispatched := [], ran := [] } :=
  (underscore_exclusion "1.0" [] false
    { plugins_ := [], dispatched := [], ran := [] } [] [] "/plugins/_disabled.js"
    (by decide)).1 loadFnW

/-- Claim C1: in the batch discovery flow, a candidate that fails to load, or
whose id already has a registry entry (rejected without replacing the
existing entry), does not prevent any subsequent candidate from being
processed: the batch including the failing candidate equals the batch with it
removed, and for a collided id exactly one registry entry (the first
registrant, unchanged) exists after the batch. -/
theorem loadAndRunPlugins_failure_isolation
    (appVersion : String) (loadFn : String → Option Plugin) (settings : PluginSettings)
    (devMode : Bool) (st : ServiceState) (pre post : List String) (p : String)
    (hnodup : keysNodup st.plugins_)
    (hfail : loadFn p = none ∨ ∃ pl, loadFn p = some pl ∧
      (objLookup (loadAndRunPlugins appVersion loadFn settings devMode st pre).plugins_
        (Plugin.id pl)).isSome) :
    loadAndRunPlugins appVersion loadFn settings devMode st (pre ++ p :: post)
      = loadAndRunPlugins appVersion loadFn settings devMode st (pre ++ post)
    ∧ ∀ pl q, loadFn p = some pl →
        objLookup (loadAndRunPlugins appVersion loadFn settings devMode st pre).plugins_
          (Plugin.id pl) = some q →
        objLookup (loadAndRunPlugins appVersion loadFn settings devMode st
            (pre ++ p :: post)).plugins_ (Plugin.id pl) = some q
        ∧ keyCount (loadAndRunPlugins appVersion loadFn settings devMode st
            (pre ++ p :: post)).plugins_ (Plugin.id pl) = 1 := by
  have hsplit1 : loadAndRunPlugins appVersion loadFn settings devMode st (pre ++ p :: post)
      = loadAndRunPlugins appVersion loadFn settings devMode
          (stepCandidate appVersion loadFn settings devMode
            (loadAndRunPlugins appVersion loadFn settings devMode st pre) p) post := by
    rw [loadAndRunPlugins, List.foldl_append, List.foldl_cons]
    rfl
  have hstep : stepCandidate appVersion loadFn settings devMode
      (loadAndRunPlugins appVersion loadFn settings devMode st pre) p
      = loadAndRunPlugins appVersion loadFn settings devMode st pre :=
    stepCandidate_noop appVersion loadFn settings devMode _ p hfail
  have hsplit2 : loadAndRunPlugins appVersion loadFn settings devMode st (pre ++ post)
      = loadAndRunPlugins appVersion loadFn settings devMode
          (loadAndRunPlugins appVersion loadFn settings devMode st pre) post := by
    rw [loadAndRunPlugins, List.foldl_append]
    rfl
  have heq : loadAndRunPlugins appVersion loadFn settings devMode st (pre ++ p :: post)
      = loadAndRunPlugins appVersion loadFn settings devMode st (pre ++ post) := by
    rw [hsplit1, hstep, hsplit2]
  refine ⟨heq, ?_⟩
  intro pl q hload hlook
  have h1 : objLookup (loadAndRunPlugins appVersion loadFn settings devMode st
      (pre ++ p :: post)).plugins_ (Plugin.id pl) = some q := by
    rw [hsplit1, hstep]
    exact loadAndRunPlugins_preserves_entry appVersion loadFn settings devMode post _ _ _ hlook
  refine ⟨h1, ?_⟩
  exact keyCount_eq_one _ _ q
    (loadAndRunPlugins_keysNodup appVersion loadFn settings devMode (pre ++ p :: post) st hnodup) h1

theorem loadAndRunPlugins_failure_isolation_witness :
    loadAndRunPlugins "2.0" loadFnW [] false
      { plugins_ := [], dispatched := [], ran := [] } (["a"] ++ "b" :: ["c"])
      = loadAndRunPlugins "2.0" loadFnW [] false
        { plugins_ := [], dispatched := [], ran := [] } (["a"] ++ ["c"]) :=
  (loadAndRunPlugins_failure_isolation "2.0" loadFnW [] false
    { plugins_ := [], dispatched := [], ran := [] } ["a"] ["c"] "b" (by decide)
    (Or.inr ⟨{ baseDir := "", manifest := { id := "x", app_min_version := "1.0" },
               scriptText := "s2", deprecationNotices := [], devMode := false },
      by decide, by decide⟩)).1

theorem keysNodup_objDelete (m : List (String × α)) (k : String)
    (h : keysNodup m) : keysNodup (objDelete m k) := by
  rw [keysNodup, objDelete]
  exact List.Nodup.sublist (List.Sublist.map Prod.fst (List.filter_sublist m)) h

theorem installPluginStep_keysNodup (st : ServiceState) (plugin : Plugin)
    (h : keysNodup st.plugins_) : keysNodup (installPluginStep st plugin).plugins_ := by
  rw [installPluginStep]
  by_cases h2 : (objLookup st.plugins_ plugin.id).isSome = true
  · rw [if_pos h2]
    exact h
  · rw [if_neg h2]
    exact keysNodup_objSet _ _ _ h

theorem installPluginStep_preserves_entry (st : ServiceState) (plugin : Plugin)
    (pid : String) (pl : Plugin) (h : objLookup st.plugins_ pid = some pl) :
    objLookup (installPluginStep st plugin).plugins_ pid = some pl := by
  rw [installPluginStep]
  by_cases h2 : (objLookup st.plugins_ plugin.id).isSome = true
  · rw [if_pos h2]
    exact h
  · rw [if_neg h2]
    have hne : Plugin.id plugin ≠ pid := by
      intro he
      exact h2 (by rw [he, h]; rfl)
    show objLookup (setPluginAt st.plugins_ plugin.id plugin) pid = some pl
    rw [setPluginAt, objLookup_objSet_ne _ _ _ _ hne]
    exact h

theorem reachableState_keysNodup (st : ServiceState) (h : ReachableState st) :
    keysNodup st.plugins_ := by
  induction h with
  | init => simp [keysNodup]
  | batchStep appVersion loadFn settings devMode st1 p hr ih =>
    exact stepCandidate_keysNodup appVersion loadFn settings devMode st1 p ih
  | installStep st1 plugin hr ih =>
    exact installPluginStep_keysNodup st1 plugin ih
  | uninstallStep st1 pid hr ih =>
    rw [uninstallPluginM]
    show keysNodup (deletePluginAt st1.plugins_ pid)
    rw [deletePluginAt]
    by_cases h2 : (objLookup st1.plugins_ pid).isSome = true
    · rw [if_pos h2]
      exact keysNodup_objDelete _ _ ih
    · rw [if_neg h2]
      exact ih
  | runStep appVersion st1 plugin hr ih =>
    rw [runPluginE_plugins]
    exact ih

/-- Claim C2 (amended): in every reachable registry state, no two entries
share the same id under exact string comparison; an insertion whose id
exactly equals the id of an existing entry — in the batch flow or in
`installPlugin` — is rejected and the existing entry is kept unchanged, never
overwritten.  (The case-insensitive comparison of the original claim fails: only
path-derived fallback ids pass through `makePluginId`; self-declared manifest
ids are compared verbatim, see the counterexample.) -/
theorem registry_exact_id_uniqueness (st : ServiceState) (h : ReachableState st) :
    keysNodup st.plugins_
    ∧ ∀ pid pl, objLookup st.plugins_ pid = some pl →
        (∀ (appVersion : String) (loadFn : String → Option Plugin)
            (settings : PluginSettings) (devMode : Bool) (p : String),
          objLookup (stepCandidate appVersion loadFn settings devMode st p).plugins_ pid = some pl)
        ∧ ∀ plugin : Plugin,
          objLookup (installPluginStep st plugin).plugins_ pid = some pl := by
  refine ⟨reachableState_keysNodup st h, ?_⟩
  intro pid pl hlook
  constructor
  · intro appVersion loadFn settings devMode p
    exact stepCandidate_preserves_entry appVersion loadFn settings devMode st p pid pl hlook
  · intro plugin
    exact installPluginStep_preserves_entry st plugin pid pl hlook

theorem registry_exact_id_uniqueness_witness :
    keysNodup stW.plugins_ :=
  (registry_exact_id_uniqueness stW
    (ReachableState.installStep { plugins_ := [], dispatched := [], ran := [] } pluginW
      ReachableState.init)).1

/-- Claim C2 counterexample: two plugins whose self-declared manifest ids
differ only in letter case (`"MyPlugin"` and `"myplugin"`, each produced by
`loadPlugin` itself) are BOTH registered by the batch flow, and the resulting
registry state is reachable — registration compares ids exactly, not
case-insensitively. -/
theorem registry_case_collision_counterexample :
    (objLookup (loadAndRunPlugins "9.9" loadFnCase [] false
        { plugins_ := [], dispatched := [], ran := [] } ["p1", "p2"]).plugins_
      "MyPlugin").isSome = true
    ∧ (objLookup (loadAndRunPlugins "9.9" loadFnCase [] false
        { plugins_ := [], dispatched := [], ran := [] } ["p1", "p2"]).plugins_
      "myplugin").isSome = true
    ∧ ReachableState (loadAndRunPlugins "9.9" loadFnCase [] false
        { plugins_ := [], dispatched := [], ran := [] } ["p1", "p2"]) := by
  refine ⟨by decide, by decide, ?_⟩
  show ReachableState (stepCandidate "9.9" loadFnCase [] false
    (stepCandidate "9.9" loadFnCase [] false
      { plugins_ := [], dispatched := [], ran := [] } "p1") "p2")
  exact ReachableState.batchStep "9.9" loadFnCase [] false _ "p2"
    (ReachableState.batchStep "9.9" loadFnCase [] false _ "p1" ReachableState.init)

theorem findRef_append (objs1 objs2 : List (Ref × Plugins)) (r : Ref) :
    (objs1 ++ objs2).find? (fun kv => kv.1 = r) =
      match objs1.find? (fun kv => kv.1 = r) with
      | some kv => some kv
      | none => objs2.find? (fun kv => kv.1 = r) := by
  induction objs1 with
  | nil => simp
  | cons kv rest ih =>
    by_cases h : kv.1 = r
    · simp [List.find?, h]
    · simp [List.find?, h, ih]

theorem heapGet_fresh (h : Heap) (hwf : heapWF h) : heapGet h h.next = none := by
  rw [heapGet]
  have hfind : h.objs.find? (fun kv => kv.1 = h.next) = none := by
    rw [List.find?_eq_none]
    intro x hx
    simp only [decide_eq_true_eq]
    exact Nat.ne_of_lt (hwf x hx)
  rw [hfind]
  rfl

theorem heapGet_extend (objs : List (Ref × Plugins)) (nxt nxt2 : Ref)
    (e : Ref × Plugins) (r : Ref) (v : Plugins)
    (hr : heapGet { objs := objs, next := nxt } r = some v) :
    heapGet { objs := objs ++ [e], next := nxt2 } r = some v := by
  rw [heapGet] at hr ⊢
  cases hfind : objs.find? (fun kv => kv.1 = r) with
  | none =>
    rw [hfind] at hr
    simp at hr
  | some kv =>
    rw [hfind] at hr
    have : (objs ++ [e]).find? (fun kv => kv.1 = r) = some kv := by
      rw [findRef_append, hfind]
    rw [this]
    exact hr

/-- Claim C3: every registry mutation (`setPluginAt`, `deletePluginAt`)
replaces the top-level mapping with a freshly allocated value: a reference to
the mapping obtained before the mutation dereferences to exactly the same
contents afterwards, and the new top-level reference of the insertion did not
exist in the heap before. -/
theorem registry_snapshot_isolation (s : RegRef) (pid pid2 : String) (plugin : Plugin)
    (r : Ref) (v : Plugins)
    (hwf : heapWF s.heap) (h : heapGet s.heap r = some v) :
    heapGet (setPluginAtHeap s pid plugin).heap r = some v
    ∧ heapGet (deletePluginAtHeap s pid2).heap r = some v
    ∧ heapGet s.heap (setPluginAtHeap s pid plugin).pluginsRef = none := by
  refine ⟨?_, ?_, ?_⟩
  · exact heapGet_extend s.heap.objs s.heap.next _ _ r v h
  · rw [deletePluginAtHeap]
    by_cases h2 : (objLookup ((heapGet s.heap s.pluginsRef).getD []) pid2).isSome = true
    · rw [if_pos h2]
      exact heapGet_extend s.heap.objs s.heap.next _ _ r v h
    · rw [if_neg h2]
      exact h
  · show heapGet s.heap s.heap.next = none
    exact heapGet_fresh s.heap hwf

theorem registry_snapshot_isolation_witness :
    heapGet (setPluginAtHeap sC3 "b" pluginB).heap 0 = some [("a", pluginW)]
    ∧ heapGet (deletePluginAtHeap sC3 "a").heap 0 = some [("a", pluginW)]
    ∧ heapGet sC3.heap (setPluginAtHeap sC3 "b" pluginB).pluginsRef = none :=
  registry_snapshot_isolation sC3 "b" "a" pluginB 0 [("a", pluginW)]
    (by decide) (by decide)

/-- Claim C4 (evaluation of the code at the failing input): with both `"a"`
and `"b"` flagged deleted, `uninstallPlugins` does uninstall both — the
registry ends empty — but the returned settings still contain `"a"`: each
iteration rebuilds `newSettings` from the original `settings`, so only the
last-processed deleted id is dropped.  With a single deleted id the result
matches the claim. -/
theorem uninstallPlugins_two_deleted_bug :
    (uninstallPlugins stAB settingsDelBoth).1.plugins_ = []
    ∧ (uninstallPlugins stAB settingsDelBoth).2
        = [("a", { enabled := true, deleted := true })]
    ∧ (uninstallPlugins stAB settingsDelOne).2
        = [("b", { enabled := true, deleted := false })]
    ∧ (uninstallPlugins stAB settingsDelOne).1.plugins_ = [("b", pluginB)] := by
  refine ⟨by decide, by decide, by decide, by decide⟩

/-- Claim C5: `loadPluginFromPackage` is a content-hash extraction cache.
On a cache hit (a previously unpacked manifest exists whose stored
`_package_hash` equals the computed hash) no wipe and no extraction happen
and the existing directory is used unchanged.  On a miss the target is wiped
and extracted exactly once: the call fails with `ExtractionFailure` exactly
when the archive contains no manifest, and otherwise the manifest is stamped
with the hash and persisted.  Consequently a second call on the directory a
successful call produced performs no further extraction. -/
theorem loadPluginFromPackage_cache (pkg : PackageFile) (st : UnpackDirState) :
    (cacheHit pkg st = true → loadPluginFromPackage pkg st = (st, none))
    ∧ (cacheHit pkg st = false → pkg.archiveManifest = none →
        loadPluginFromPackage pkg st =
          ({ storedManifest := none, extractCount := st.extractCount + 1 },
           some PkgError.extractionFailure))
    ∧ (cacheHit pkg st = false → ∀ m, pkg.archiveManifest = some m →
        loadPluginFromPackage pkg st =
          ({ storedManifest := some { m with packageHash := some pkg.hash },
             extractCount := st.extractCount + 1 }, none))
    ∧ (∀ st1, loadPluginFromPackage pkg st = (st1, none) →
        loadPluginFromPackage pkg st1 = (st1, none)
        ∧ st1.extractCount ≤ st.extractCount + 1) := by
  refine ⟨?_, ?_, ?_, ?_⟩
  · intro hh
    rw [loadPluginFromPackage, if_pos hh]
  · intro hh hm
    rw [loadPluginFromPackage, if_neg (by simp [hh])]
    simp [wipeAndExtract, hm]
  · intro hh m hm
    rw [loadPluginFromPackage, if_neg (by simp [hh])]
    simp [wipeAndExtract, hm]
  · intro st1 hok
    by_cases hh : cacheHit pkg st = true
    · rw [loadPluginFromPackage, if_pos hh] at hok
      have hst : st = st1 := congrArg Prod.fst hok
      subst hst
      refine ⟨by rw [loadPluginFromPackage, if_pos hh], Nat.le_succ _⟩
    · rw [loadPluginFromPackage, if_neg hh] at hok
      cases hm : pkg.archiveManifest with
      | none =>
        rw [wipeAndExtract] at hok
        simp [hm] at hok
      | some m =>
        rw [wipeAndExtract] at hok
        simp only [hm] at hok
        have hst : st1 = { storedManifest := some { m with packageHash := some pkg.hash }, extractCount := st.extractCount + 1 } :=
          (congrArg Prod.fst hok).symm
        subst hst
        constructor
        · rw [loadPluginFromPackage, if_pos (by simp [cacheHit])]
        · exact Nat.le_refl _
  
theorem loadPluginFromPackage_cache_witness :
    loadPluginFromPackage pkgW { storedManifest := none, extractCount := 0 }
      = ({ storedManifest := some { core := { id := some "a", app_min_version := some "1.0" }, packageHash := some "h1" }, extractCount := 1 }, none)
    ∧ loadPluginFromPackage pkgW { storedManifest := some { core := { id := some "a", app_min_version := some "1.0" }, packageHash := some "h1" }, extractCount := 1 }
      = ({ storedManifest := some { core := { id := some "a", app_min_version := some "1.0" }, packageHash := some "h1" }, extractCount := 1 }, none) := by
  constructor
  · exact (loadPluginFromPackage_cache pkgW { storedManifest := none, extractCount := 0 }).2.2.1
      (by decide) { core := { id := some "a", app_min_version := some "1.0" }, packageHash := none }
      (by decide)
  · exact (loadPluginFromPackage_cache pkgW { storedManifest := some { core := { id := some "a", app_min_version := some "1.0" }, packageHash := some "h1" }, extractCount := 1 }).1
      (by decide)

set_option maxRecDepth 8000 in
theorem appMinNotice_ne_idNotice (fb : String) : appMinVersionNotice ≠ idNotice fb := by
  intro hcontra
  have h30 := congrArg (fun s => s.data[30]?) hcontra
  have he : (idNotice fb).data = idNoticePre.data ++ (fb.data ++ idNoticeSuf.data) := by
    show ((idNoticePre ++ fb) ++ idNoticeSuf).data = _
    rw [String.data_append, String.data_append, List.append_assoc]
  simp only [he] at h30
  rw [List.getElem?_append_left (by decide)] at h30
  have hL : appMinVersionNotice.data[30]? = some 'a' := by decide
  have hR : idNoticePre.data[30]? = some 'i' := by decide
  rw [hL, hR] at h30
  exact absurd h30 (by decide)

theorem loadPlugin_eval (baseDir : String) (mo : ManifestObj) (scriptText fb : String) :
    loadPlugin baseDir mo scriptText fb =
      if (effectiveId mo fb).isEmpty then .error .missingPluginId
      else .ok { baseDir := rtrimSlashes baseDir,
                 manifest := { id := effectiveId mo fb,
                               app_min_version := effectiveAppMinVersion mo },
                 scriptText := scriptText,
                 deprecationNotices := defaultingNotices mo fb,
                 devMode := false } := by
  by_cases h1 : falsyStr mo.app_min_version = true
  · by_cases h2 : falsyStr mo.id = true
    · simp [loadPlugin, h1, h2, Plugin.id, manifestFromObject, effectiveId,
        effectiveAppMinVersion, defaultingNotices]
    · simp [loadPlugin, h1, h2, Plugin.id, manifestFromObject, effectiveId,
        effectiveAppMinVersion, defaultingNotices]
  · by_cases h2 : falsyStr mo.id = true
    · simp [loadPlugin, h1, h2, Plugin.id, manifestFromObject, effectiveId,
        effectiveAppMinVersion, defaultingNotices]
    · simp [loadPlugin, h1, h2, Plugin.id, manifestFromObject, effectiveId,
        effectiveAppMinVersion, defaultingNotices]

/-- Claim C7: `loadPlugin` defaulting — a manifest that decodes but lacks
`app_min_version` yields (on success) a plugin whose manifest has
`app_min_version = "1.4"` carrying exactly one deprecation notice mentioning
that default; a manifest lacking an id gets the fallback id substituted with
a deprecation notice; and loading fails with `MissingPluginId` exactly when
the id is still empty after the defaulting. -/
theorem loadPlugin_defaults (baseDir : String) (mo : ManifestObj) (scriptText fb : String) :
    (falsyStr mo.app_min_version = true →
      ∀ pl, loadPlugin baseDir mo scriptText fb = .ok pl →
        pl.manifest.app_min_version = "1.4"
        ∧ pl.deprecationNotices.count appMinVersionNotice = 1)
    ∧ (falsyStr mo.id = true →
      ∀ pl, loadPlugin baseDir mo scriptText fb = .ok pl →
        pl.manifest.id = fb ∧ idNotice fb ∈ pl.deprecationNotices)
    ∧ (loadPlugin baseDir mo scriptText fb = .error .missingPluginId
        ↔ effectiveId mo fb = "") := by
  rw [loadPlugin_eval]
  by_cases hempty : (effectiveId mo fb).isEmpty = true
  · rw [if_pos hempty]
    refine ⟨?_, ?_, ?_⟩
    · intro _ pl hok
      exact absurd hok (by simp)
    · intro _ pl hok
      exact absurd hok (by simp)
    · simp [(String.isEmpty_iff _).mp hempty]
  · rw [if_neg hempty]
    refine ⟨?_, ?_, ?_⟩
    · intro h1 pl hok
      cases hok
      constructor
      · simp [effectiveAppMinVersion, h1]
      · simp only [defaultingNotices, h1, if_true]
        by_cases h2 : falsyStr mo.id = true
        · simp [h2, List.count_cons, List.count_singleton, appMinNotice_ne_idNotice fb]
        · simp [h2]
    · intro h2 pl hok
      cases hok
      constructor
      · simp [effectiveId, h2]
      · simp [defaultingNotices, h2]
    · constructor
      · intro hok
        exact absurd hok (by simp)
      · intro heff
        rw [heff] at hempty
        exact absurd (by decide) hempty

set_option maxRecDepth 8000 in
theorem loadPlugin_defaults_witness :
    (loadPlugin "d" { id := none, app_min_version := none } "s" "fid").toOption
      = some { baseDir := "d",
               manifest := { id := "fid", app_min_version := "1.4" },
               scriptText := "s",
               deprecationNotices := [appMinVersionNotice, idNotice "fid"],
               devMode := false }
    ∧ (loadPlugin "d" { id := none, app_min_version := none } "s" "fid").toOption.all
        (fun pl => pl.deprecationNotices.count appMinVersionNotice = 1
          ∧ pl.manifest.app_min_version = "1.4" ∧ pl.manifest.id = "fid") := by
  constructor
  · decide
  · cases hok : loadPlugin "d" { id := none, app_min_version := none } "s" "fid" with
    | error e =>
      have := ((loadPlugin_defaults "d" { id := none, app_min_version := none } "s" "fid").2.2).mp
        (by cases e; exact hok)
      exact absurd this (by decide)
    | ok pl =>
      have ha := (loadPlugin_defaults "d" { id := none, app_min_version := none } "s" "fid").1
        (by decide) pl hok
      have hb := ((loadPlugin_defaults "d" { id := none, app_min_version := none } "s" "fid").2.1)
        (by decide) pl hok
      simp [Except.toOption, ha.1, ha.2, hb.1]

theorem parsePluginJsBundle_spec_witness :
    parsePluginJsBundle "console" = .error .manifestNotFound :=
  (parsePluginJsBundle_spec "console").2 (by decide)
